import Mathlib

/-!
Verification of the go-get-imgs repository: a shallow embedding of the
URL validator (internal/utils/url.go), the extension resolver and image
downloader (internal/downloader), and the CSV row processor
(internal/csv/processor.go), together with theorems settling the
specification claims about them.

Go strings are modelled as lists of characters (`GoStr`).  The HTTP
transport, the filesystem and the CSV reader are modelled by explicit
parameters: an HTTP interaction is a network failure or a response with a
status code and a content-type header; the CSV reader is modelled by the
list of records it successfully yields before the first read error or
end-of-input; file creation and body copying are modelled by boolean
outcomes.  Go's runtime panic on a negative slice index is modelled by a
distinguished `outOfRange` outcome.
-/

namespace GoGetImgs

/-- Go strings, modelled as lists of characters. -/
abbrev GoStr := List Char

/-- Characters trimmed by Go strings.TrimSpace (unicode.IsSpace). -/
def isGoSpace (c : Char) : Bool :=
  let n := c.toNat
  n == 9 || n == 10 || n == 11 || n == 12 || n == 13 || n == 32 ||
  n == 0x85 || n == 0xA0 || n == 0x1680 || (0x2000 ≤ n && n ≤ 0x200A) ||
  n == 0x2028 || n == 0x2029 || n == 0x202F || n == 0x205F || n == 0x3000

/-- Go strings.TrimSpace: drop leading and trailing whitespace. -/
def trimSpace (s : GoStr) : GoStr :=
  ((s.dropWhile isGoSpace).reverse.dropWhile isGoSpace).reverse

/-- Go strings.Contains: sub occurs as a contiguous substring of s. -/
def goContains (s sub : GoStr) : Bool :=
  match s with
  | [] => sub.isEmpty
  | _ :: rest => sub.isPrefixOf s || goContains rest sub

/-- Go strings.ToLower, restricted to the ASCII case mapping. -/
def goToLower (s : GoStr) : GoStr := s.map Char.toLower

/-- Decimal rendering of a row number, as fmt.Sprintf %d produces. -/
def natToStr (n : Nat) : GoStr := Nat.toDigits 10 n

/-- Scheme literal http:// from url.go. -/
def httpScheme : GoStr := "http://".toList

/-- Scheme literal https:// from url.go. -/
def httpsScheme : GoStr := "https://".toList

/-- Scheme literal ftp:// from url.go. -/
def ftpScheme : GoStr := "ftp://".toList

/-- Scheme literal file:// from url.go. -/
def fileScheme : GoStr := "file://".toList

/-- The validSchemes slice of IsValidURL in url.go. -/
def validSchemes : List GoStr := [httpScheme, httpsScheme, ftpScheme, fileScheme]

/-- IsValidURL from internal/utils/url.go: trim, require a recognised
scheme prefix, then a length check for file:// and a non-empty remainder
without a space character for the other schemes. -/
def IsValidURL (url : GoStr) : Bool :=
  let trimmed := trimSpace url
  if trimmed.isEmpty then false
  else
    let hasValidScheme := validSchemes.any (fun scheme => scheme.isPrefixOf trimmed)
    if !hasValidScheme then false
    else if fileScheme.isPrefixOf trimmed then
      decide (trimmed.length > 7)
    else
      match validSchemes.find? (fun scheme => scheme.isPrefixOf trimmed) with
      | some scheme =>
          let afterScheme := trimmed.drop scheme.length
          decide (afterScheme.length > 0) && !goContains afterScheme [' ']
      | none => false

/-- Claim C2 as stated, word for word: after trimming, a recognised
scheme is required; file:// URLs are valid iff longer than 7 characters;
for the other three schemes the remainder after the scheme prefix must be
non-empty and contain no whitespace character. -/
def c2ClaimValid (url : GoStr) : Bool :=
  let trimmed := trimSpace url
  if trimmed.isEmpty then false
  else if httpScheme.isPrefixOf trimmed then
    decide ((trimmed.drop httpScheme.length).length > 0) &&
      !((trimmed.drop httpScheme.length).any isGoSpace)
  else if httpsScheme.isPrefixOf trimmed then
    decide ((trimmed.drop httpsScheme.length).length > 0) &&
      !((trimmed.drop httpsScheme.length).any isGoSpace)
  else if ftpScheme.isPrefixOf trimmed then
    decide ((trimmed.drop ftpScheme.length).length > 0) &&
      !((trimmed.drop ftpScheme.length).any isGoSpace)
  else if fileScheme.isPrefixOf trimmed then
    decide (trimmed.length > 7)
  else false

/-- Claim C2 amended: identical to the claim except that the remainder
check rejects only the space character, as the code does. -/
def c2AmendedValid (url : GoStr) : Bool :=
  let trimmed := trimSpace url
  if trimmed.isEmpty then false
  else if httpScheme.isPrefixOf trimmed then
    decide ((trimmed.drop httpScheme.length).length > 0) &&
      !goContains (trimmed.drop httpScheme.length) [' ']
  else if httpsScheme.isPrefixOf trimmed then
    decide ((trimmed.drop httpsScheme.length).length > 0) &&
      !goContains (trimmed.drop httpsScheme.length) [' ']
  else if ftpScheme.isPrefixOf trimmed then
    decide ((trimmed.drop ftpScheme.length).length > 0) &&
      !goContains (trimmed.drop ftpScheme.length) [' ']
  else if fileScheme.isPrefixOf trimmed then
    decide (trimmed.length > 7)
  else false

/-- Go path/filepath.Ext on a slash-separated path: the suffix starting
at the last dot of the final path element, or empty if there is none.
Implemented, as in Go, by scanning backwards until a separator. -/
def extScan : List Char → List Char → GoStr
  | [], _ => []
  | c :: rest, acc =>
      if c = '/' then []
      else if c = '.' then c :: acc
      else extScan rest (c :: acc)

/-- Go filepath.Ext, as used by GetExtensionFromURL. -/
def filepathExt (path : GoStr) : GoStr := extScan path.reverse []

/-- Extension literal .jpg. -/
def dotJpg : GoStr := ".jpg".toList

/-- Extension literal .jpeg. -/
def dotJpeg : GoStr := ".jpeg".toList

/-- Extension literal .png. -/
def dotPng : GoStr := ".png".toList

/-- Extension literal .gif. -/
def dotGif : GoStr := ".gif".toList

/-- Extension literal .webp. -/
def dotWebp : GoStr := ".webp".toList

/-- Extension literal .bmp. -/
def dotBmp : GoStr := ".bmp".toList

/-- Extension literal .tiff. -/
def dotTiff : GoStr := ".tiff".toList

/-- Extension literal .tif. -/
def dotTif : GoStr := ".tif".toList

/-- The validExts slice of GetExtensionFromURL in the downloader. -/
def validExts : List GoStr :=
  [dotJpg, dotJpeg, dotPng, dotGif, dotWebp, dotBmp, dotTiff, dotTif]

/-- GetExtensionFromURL from the downloader: take filepath.Ext of the
URL, lower-case it and keep it only if it is on the allow-list. -/
def GetExtensionFromURL (url : GoStr) : GoStr :=
  let ext := filepathExt url
  if !ext.isEmpty then
    let low := goToLower ext
    if validExts.contains low then low else []
  else []

/-- getExtensionFromContentType from the downloader: substring-match the
content-type header against the fixed marker list, first match wins. -/
def getExtensionFromContentType (contentType : GoStr) : GoStr :=
  if goContains contentType ("image/jpeg".toList) then dotJpg
  else if goContains contentType ("image/jpg".toList) then dotJpg
  else if goContains contentType ("image/png".toList) then dotPng
  else if goContains contentType ("image/gif".toList) then dotGif
  else if goContains contentType ("image/webp".toList) then dotWebp
  else if goContains contentType ("image/bmp".toList) then dotBmp
  else if goContains contentType ("image/tiff".toList) then dotTiff
  else []

/-- An HTTP response as DownloadImage observes it. -/
structure HTTPResponse where
  statusCode : Nat
  contentType : GoStr
deriving DecidableEq

/-- Outcome of the HTTP GET issued by DownloadImage. -/
inductive HTTPOutcome where
  | netError
  | response (r : HTTPResponse)
deriving DecidableEq

/-- Observable outcome of DownloadImage: the returned error, if any, and
the files created in the download directory. -/
structure DownloadOutcome where
  result : Option GoStr
  createdFiles : List GoStr
deriving DecidableEq

/-- Output filename image_(rowNum)(extension) built by DownloadImage. -/
def imageFilename (rowNum : Nat) (extension : GoStr) : GoStr :=
  "image_".toList ++ natToStr rowNum ++ extension

/-- DownloadImage from the downloader.  createOk models whether os.Create
succeeds; copyOk models whether io.Copy succeeds.  On a network failure or
a non-200 status it returns an error before touching the filesystem; on a
200 response it resolves the extension (content-type, then URL, then .jpg)
and creates the file; a copy failure still leaves the created file. -/
def downloadImage (outcome : HTTPOutcome) (url : GoStr) (rowNum : Nat)
    (createOk copyOk : Bool) : DownloadOutcome :=
  match outcome with
  | HTTPOutcome.netError => { result := some ("HTTP request failed".toList), createdFiles := [] }
  | HTTPOutcome.response r =>
    if r.statusCode ≠ 200 then
      { result := some ("HTTP status".toList), createdFiles := [] }
    else
      let ext0 := getExtensionFromContentType r.contentType
      let extension :=
        if ext0.isEmpty then
          let ext1 := GetExtensionFromURL url
          if ext1.isEmpty then dotJpg else ext1
        else ext0
      let filename := imageFilename rowNum extension
      if !createOk then
        { result := some ("failed to create file".toList), createdFiles := [] }
      else if !copyOk then
        { result := some ("failed to write file".toList), createdFiles := [filename] }
      else
        { result := none, createdFiles := [filename] }

/-- The ProcessResult counters of internal/csv/processor.go. -/
structure ProcessResult where
  SuccessCount : Nat
  ErrorCount : Nat
  TotalRows : Nat
deriving DecidableEq

/-- Structural failure causes of ProcessCSV. -/
inductive StructuralError where
  | openFailed
  | headerReadFailed
  | headerTooFewColumns
deriving DecidableEq

/-- Observable termination of ProcessCSV: a structural error (error
return with nil result), a Go runtime panic from a negative slice index,
or a normal return carrying the final ProcessResult. -/
inductive CSVOutcome where
  | structuralError (e : StructuralError)
  | outOfRange
  | ok (r : ProcessResult)
deriving DecidableEq

/-- One invocation of the onRow callback: trimmed URL and row number. -/
abbrev Call := GoStr × Nat

/-- Go slice indexing row[k] with an Int index: panics (none) when the
index is negative or past the end. -/
def goIndex (row : List GoStr) (k : Int) : Option GoStr :=
  if k < 0 then none else row.get? k.toNat

/-- Per-row counter update of ProcessCSV: TotalRows is always
incremented; SuccessCount or ErrorCount is incremented according to the
row's outcome. -/
def countRow (acc : ProcessResult) (success : Bool) : ProcessResult :=
  if success then
    { acc with TotalRows := acc.TotalRows + 1, SuccessCount := acc.SuccessCount + 1 }
  else
    { acc with TotalRows := acc.TotalRows + 1, ErrorCount := acc.ErrorCount + 1 }

/-- The row loop of ProcessCSV.  Takes the remaining records, the current
row-number counter and the accumulated counters; returns the outcome
together with the list of onRow invocations made, in order.  The download
callback is modelled as a function of the trimmed URL and row number; row
numbers are distinct across calls, so this loses no generality. -/
def processRows (idx : Int) (download : GoStr → Nat → Bool) :
    List (List GoStr) → Nat → ProcessResult → CSVOutcome × List Call
  | [], _, acc => (CSVOutcome.ok acc, [])
  | row :: rest, rowNum, acc =>
    if (row.length : Int) < idx then
      processRows idx download rest (rowNum + 1) (countRow acc false)
    else
      match goIndex row (idx - 1) with
      | none => (CSVOutcome.outOfRange, [])
      | some cell =>
        let imageURL := trimSpace cell
        if imageURL.isEmpty then
          processRows idx download rest (rowNum + 1) (countRow acc false)
        else
          let recres := processRows idx download rest (rowNum + 1)
            (countRow acc (download imageURL rowNum))
          (recres.1, (imageURL, rowNum) :: recres.2)

/-- ProcessCSV from internal/csv/processor.go.  openOk models whether
os.Open succeeds; records is the list of records the csv.Reader yields
before it first signals end-of-input or a read error (the code treats
every read error as end of data).  The first record is the header. -/
def ProcessCSV (openOk : Bool) (records : List (List GoStr)) (idx : Int)
    (download : GoStr → Nat → Bool) : CSVOutcome × List Call :=
  if !openOk then (CSVOutcome.structuralError StructuralError.openFailed, [])
  else
    match records with
    | [] => (CSVOutcome.structuralError StructuralError.headerReadFailed, [])
    | header :: rows =>
      if (header.length : Int) < idx then
        (CSVOutcome.structuralError StructuralError.headerTooFewColumns, [])
      else processRows idx download rows 1 { SuccessCount := 0, ErrorCount := 0, TotalRows := 0 }

/-- The onRow invocations determined by the records alone: an entry
(trimmed cell, n + k) for every k-th remaining record that has enough
columns and a non-empty trimmed URL cell, truncated at an out-of-range
index.  Used to characterise the call trace of processRows. -/
def callsSpec (idx : Int) : List (List GoStr) → Nat → List Call
  | [], _ => []
  | row :: rest, rowNum =>
    if (row.length : Int) < idx then callsSpec idx rest (rowNum + 1)
    else
      match goIndex row (idx - 1) with
      | none => []
      | some cell =>
        let imageURL := trimSpace cell
        if imageURL.isEmpty then callsSpec idx rest (rowNum + 1)
        else (imageURL, rowNum) :: callsSpec idx rest (rowNum + 1)

lemma isEmpty_false_of_ne {l : GoStr} (h : l ≠ []) : l.isEmpty = false := by
  cases l with
  | nil => exact absurd rfl h
  | cons a t => rfl

lemma mem_of_containsB {l : List GoStr} {a : GoStr} (h : l.contains a = true) : a ∈ l := by
  simpa using h

/-- C9: GetExtensionFromURL returns either the empty string or the
lower-casing of the extension after the last dot of the URL's final
path-like segment; a non-empty result is always on the eight-element
allow-list; matching is case-insensitive; a URL with no dot or an unknown
suffix yields the empty string. -/
theorem getExtensionFromURL_spec (url : GoStr) :
    (GetExtensionFromURL url = [] ∨
      GetExtensionFromURL url = goToLower (filepathExt url)) ∧
    (GetExtensionFromURL url ≠ [] → GetExtensionFromURL url ∈ validExts) ∧
    GetExtensionFromURL ("http://e/a.JPG".toList) = dotJpg ∧
    GetExtensionFromURL ("http://example/foo".toList) = [] ∧
    GetExtensionFromURL ("http://e/a.txt".toList) = [] := by
  have h1 : GetExtensionFromURL url =
      (if !(filepathExt url).isEmpty then
        (if validExts.contains (goToLower (filepathExt url)) then
          goToLower (filepathExt url) else [])
      else []) := rfl
  have hrepr : GetExtensionFromURL url = [] ∨
      (GetExtensionFromURL url = goToLower (filepathExt url) ∧
        validExts.contains (goToLower (filepathExt url)) = true) := by
    rw [h1]
    cases hE : (filepathExt url).isEmpty with
    | true => left; simp [hE]
    | false =>
      cases hC : validExts.contains (goToLower (filepathExt url)) with
      | true =>
        refine Or.inr ⟨?_, rfl⟩
        simp [hE]
      | false =>
        left
        simp [hE]
  refine ⟨?_, ?_, by decide, by decide, by decide⟩
  · rcases hrepr with h | ⟨h, _⟩
    · exact Or.inl h
    · exact Or.inr h
  · intro hne
    rcases hrepr with h | ⟨h, hC⟩
    · exact absurd h hne
    · rw [h]
      exact mem_of_containsB hC

/-- C9 witness: the allow-list membership at a concrete URL. -/
theorem getExtensionFromURL_spec_witness :
    GetExtensionFromURL ("http://e/b.PNG".toList) ∈ validExts :=
  (getExtensionFromURL_spec ("http://e/b.PNG".toList)).2.1 (by decide)

/-- C1: on a 200 response, DownloadImage resolves the output file's
extension by the three-tier priority: the content-type extension when
non-empty, else the URL extension when non-empty, else .jpg; in
particular a png content-type beats a .jpg URL, and two empty resolvers
give .jpg. -/
theorem downloadImage_extension_priority (r : HTTPResponse) (url : GoStr) (n : Nat)
    (h : r.statusCode = 200) :
    (getExtensionFromContentType r.contentType ≠ [] →
      (downloadImage (HTTPOutcome.response r) url n true true).createdFiles =
        [imageFilename n (getExtensionFromContentType r.contentType)]) ∧
    (getExtensionFromContentType r.contentType = [] → GetExtensionFromURL url ≠ [] →
      (downloadImage (HTTPOutcome.response r) url n true true).createdFiles =
        [imageFilename n (GetExtensionFromURL url)]) ∧
    (getExtensionFromContentType r.contentType = [] → GetExtensionFromURL url = [] →
      (downloadImage (HTTPOutcome.response r) url n true true).createdFiles =
        [imageFilename n dotJpg]) ∧
    (downloadImage (HTTPOutcome.response ⟨200, "image/png".toList⟩)
        ("http://e/a.jpg".toList) n true true).createdFiles = [imageFilename n dotPng] ∧
    (downloadImage (HTTPOutcome.response ⟨200, "text/unknown".toList⟩)
        ("http://e/noext".toList) n true true).createdFiles = [imageFilename n dotJpg] := by
  obtain ⟨sc, ct⟩ := r
  simp only [HTTPResponse.statusCode] at h
  subst h
  refine ⟨?_, ?_, ?_, ?_, ?_⟩
  · intro hct
    simp [downloadImage, isEmpty_false_of_ne hct]
  · intro hct hurl
    simp [downloadImage, hct, isEmpty_false_of_ne hurl]
  · intro hct hurl
    simp [downloadImage, hct, hurl]
  · simp only [downloadImage]
    norm_num
    congr 1
  · simp only [downloadImage]
    norm_num
    congr 1

/-- C1 witness: the png-over-jpg instance at row number 1. -/
theorem downloadImage_extension_priority_witness :
    (downloadImage (HTTPOutcome.response ⟨200, "image/png".toList⟩)
      ("http://e/a.jpg".toList) 1 true true).createdFiles = [imageFilename 1 dotPng] :=
  (downloadImage_extension_priority ⟨200, "image/png".toList⟩
    ("http://e/a.jpg".toList) 1 rfl).2.2.2.1

/-- C8: a network failure or a non-200 status makes DownloadImage return
an error with no file created, for every URL, row number and filesystem
behaviour. -/
theorem downloadImage_error_no_file (r : HTTPResponse) (url : GoStr) (n : Nat)
    (createOk copyOk : Bool) (h : r.statusCode ≠ 200) :
    ((downloadImage HTTPOutcome.netError url n createOk copyOk).createdFiles = [] ∧
      ∃ msg, (downloadImage HTTPOutcome.netError url n createOk copyOk).result = some msg) ∧
    ((downloadImage (HTTPOutcome.response r) url n createOk copyOk).createdFiles = [] ∧
      ∃ msg, (downloadImage (HTTPOutcome.response r) url n createOk copyOk).result = some msg) := by
  refine ⟨⟨rfl, ⟨_, rfl⟩⟩, ?_, ?_⟩
  · simp [downloadImage, h]
  · refine ⟨"HTTP status".toList, ?_⟩
    simp [downloadImage, h]

/-- C8 witness: the 404 instance. -/
theorem downloadImage_error_no_file_witness :
    ((downloadImage HTTPOutcome.netError [] 0 true true).createdFiles = [] ∧
      ∃ msg, (downloadImage HTTPOutcome.netError [] 0 true true).result = some msg) ∧
    ((downloadImage (HTTPOutcome.response ⟨404, []⟩) [] 0 true true).createdFiles = [] ∧
      ∃ msg, (downloadImage (HTTPOutcome.response ⟨404, []⟩) [] 0 true true).result = some msg) :=
  downloadImage_error_no_file ⟨404, []⟩ [] 0 true true (by decide)

lemma get?_some_of_lt {α : Type} (l : List α) (k : Nat) (h : k < l.length) :
    ∃ a, l.get? k = some a := by
  cases hq : l.get? k with
  | none =>
    have := List.get?_eq_none.mp hq
    omega
  | some a => exact ⟨a, rfl⟩

lemma countRow_TotalRows (acc : ProcessResult) (b : Bool) :
    (countRow acc b).TotalRows = acc.TotalRows + 1 := by
  cases b <;> rfl

lemma countRow_sum (acc : ProcessResult) (b : Bool) :
    (countRow acc b).SuccessCount + (countRow acc b).ErrorCount =
      acc.SuccessCount + acc.ErrorCount + 1 := by
  cases b <;> simp [countRow] <;> omega

lemma processRows_counts (idx : Int) (download : GoStr → Nat → Bool) :
    ∀ (rows : List (List GoStr)) (n : Nat) (acc r : ProcessResult) (tr : List Call),
      processRows idx download rows n acc = (CSVOutcome.ok r, tr) →
      r.TotalRows = acc.TotalRows + rows.length ∧
      r.SuccessCount + r.ErrorCount = acc.SuccessCount + acc.ErrorCount + rows.length := by
  intro rows
  induction rows with
  | nil =>
    intro n acc r tr h
    simp only [processRows, Prod.mk.injEq, CSVOutcome.ok.injEq] at h
    obtain ⟨rfl, -⟩ := h
    simp
  | cons row rest ih =>
    intro n acc r tr h
    simp only [processRows] at h
    simp only [List.length_cons]
    split at h
    · have hc := ih (n + 1) _ r tr h
      have h1 := countRow_TotalRows acc false
      have h2 := countRow_sum acc false
      omega
    · split at h
      · simp at h
      · rename_i cell heq
        split at h
        · have hc := ih (n + 1) _ r tr h
          have h1 := countRow_TotalRows acc false
          have h2 := countRow_sum acc false
          omega
        · simp only [Prod.mk.injEq] at h
          obtain ⟨ho, htr⟩ := h
          have hrec : processRows idx download rest (n + 1)
              (countRow acc (download (trimSpace cell) n)) =
              (CSVOutcome.ok r,
                (processRows idx download rest (n + 1)
                  (countRow acc (download (trimSpace cell) n))).2) := by
            rw [← ho]
          have hc := ih (n + 1) _ r _ hrec
          have h1 := countRow_TotalRows acc (download (trimSpace cell) n)
          have h2 := countRow_sum acc (download (trimSpace cell) n)
          omega

lemma processRows_isOk (idx : Int) (hidx : 1 ≤ idx) (download : GoStr → Nat → Bool) :
    ∀ (rows : List (List GoStr)) (n : Nat) (acc : ProcessResult),
      ∃ r tr, processRows idx download rows n acc = (CSVOutcome.ok r, tr) := by
  intro rows
  induction rows with
  | nil => intro n acc; exact ⟨acc, [], rfl⟩
  | cons row rest ih =>
    intro n acc
    simp only [processRows]
    by_cases h1 : (row.length : Int) < idx
    · rw [if_pos h1]
      exact ih (n + 1) _
    · rw [if_neg h1]
      have hlt : (idx - 1).toNat < row.length := by omega
      obtain ⟨cell, hcell⟩ := get?_some_of_lt row _ hlt
      have hg : goIndex row (idx - 1) = some cell := by
        unfold goIndex
        rw [if_neg (by omega : ¬ (idx - 1 < 0))]
        exact hcell
      rw [hg]
      dsimp only
      by_cases h2 : (trimSpace cell).isEmpty = true
      · rw [if_pos h2]
        exact ih (n + 1) _
      · rw [if_neg h2]
        obtain ⟨r, tr, hrec⟩ := ih (n + 1) (countRow acc (download (trimSpace cell) n))
        refine ⟨r, (trimSpace cell, n) :: tr, ?_⟩
        rw [hrec]

lemma processRows_ne_structural (idx : Int) (download : GoStr → Nat → Bool) :
    ∀ (rows : List (List GoStr)) (n : Nat) (acc : ProcessResult) (e : StructuralError),
      (processRows idx download rows n acc).1 ≠ CSVOutcome.structuralError e := by
  intro rows
  induction rows with
  | nil => intro n acc e; simp [processRows]
  | cons row rest ih =>
    intro n acc e
    simp only [processRows]
    split
    · exact ih (n + 1) _ e
    · split
      · simp
      · rename_i cell heq
        split
        · exact ih (n + 1) _ e
        · exact ih (n + 1) _ e

/-- C4: whenever ProcessCSV returns normally, the counters satisfy
SuccessCount + ErrorCount = TotalRows, and TotalRows is the number of
data records read after the header. -/
theorem processCSV_counts (openOk : Bool) (records : List (List GoStr)) (idx : Int)
    (download : GoStr → Nat → Bool) (r : ProcessResult) (tr : List Call)
    (h : ProcessCSV openOk records idx download = (CSVOutcome.ok r, tr)) :
    r.SuccessCount + r.ErrorCount = r.TotalRows ∧ r.TotalRows + 1 = records.length := by
  cases openOk with
  | false => simp [ProcessCSV] at h
  | true =>
    cases records with
    | nil => simp [ProcessCSV] at h
    | cons header rows =>
      by_cases hh : (header.length : Int) < idx
      · simp [ProcessCSV, hh] at h
      · rw [show ProcessCSV true (header :: rows) idx download =
            processRows idx download rows 1 ⟨0, 0, 0⟩ from by simp [ProcessCSV, hh]] at h
        have hc := processRows_counts idx download rows 1 ⟨0, 0, 0⟩ r tr h
        simp only [List.length_cons]
        dsimp at hc
        omega

/-- C4 witness: a run with one successful and one failed row. -/
theorem processCSV_counts_witness :
    (⟨1, 1, 2⟩ : ProcessResult).SuccessCount + (⟨1, 1, 2⟩ : ProcessResult).ErrorCount =
        (⟨1, 1, 2⟩ : ProcessResult).TotalRows ∧
      (⟨1, 1, 2⟩ : ProcessResult).TotalRows + 1 =
        [["h".toList], ["http://x".toList], ["".toList]].length :=
  processCSV_counts true [["h".toList], ["http://x".toList], ["".toList]] 1
    (fun _ _ => true) ⟨1, 1, 2⟩ [("http://x".toList, 1)] (by decide)

/-- C5: once the file opens and the header has at least idx columns,
ProcessCSV returns a result and no error, whatever the remaining records
are and however many rows fail: the record list models everything the
reader yields before its first error, so read errors never propagate. -/
theorem processCSV_ok_total (idx : Int) (hidx : 1 ≤ idx) (header : List GoStr)
    (rows : List (List GoStr)) (download : GoStr → Nat → Bool)
    (hcols : idx ≤ (header.length : Int)) :
    ∃ r tr, ProcessCSV true (header :: rows) idx download = (CSVOutcome.ok r, tr) := by
  have hh : ¬ (header.length : Int) < idx := by omega
  rw [show ProcessCSV true (header :: rows) idx download =
      processRows idx download rows 1 ⟨0, 0, 0⟩ from by simp [ProcessCSV, hh]]
  exact processRows_isOk idx hidx download rows 1 ⟨0, 0, 0⟩

/-- C5 witness: a single data row whose download fails still yields a
normal return. -/
theorem processCSV_ok_total_witness :
    ∃ r tr, ProcessCSV true [["h".toList], ["bad".toList]] 1 (fun _ _ => false) =
      (CSVOutcome.ok r, tr) :=
  processCSV_ok_total 1 (by decide) ["h".toList] [["bad".toList]] (fun _ _ => false) (by decide)

/-- C6: ProcessCSV returns an error (carrying no result) exactly when the
file cannot be opened, the header cannot be read, or the header has fewer
than idx columns; in that case the callback is never invoked. -/
theorem processCSV_structural_iff (openOk : Bool) (records : List (List GoStr)) (idx : Int)
    (download : GoStr → Nat → Bool) :
    ((∃ e, (ProcessCSV openOk records idx download).1 = CSVOutcome.structuralError e) ↔
      (openOk = false ∨ records = [] ∨
        ∃ header rows, records = header :: rows ∧ (header.length : Int) < idx)) ∧
    (∀ e, (ProcessCSV openOk records idx download).1 = CSVOutcome.structuralError e →
      (ProcessCSV openOk records idx download).2 = []) := by
  cases openOk with
  | false =>
    refine ⟨⟨fun _ => Or.inl rfl, fun _ => ⟨StructuralError.openFailed, rfl⟩⟩, ?_⟩
    intro e _
    rfl
  | true =>
    cases records with
    | nil =>
      refine ⟨⟨fun _ => Or.inr (Or.inl rfl),
        fun _ => ⟨StructuralError.headerReadFailed, rfl⟩⟩, ?_⟩
      intro e _
      rfl
    | cons header rows =>
      by_cases hh : (header.length : Int) < idx
      · have hP : ProcessCSV true (header :: rows) idx download =
            (CSVOutcome.structuralError StructuralError.headerTooFewColumns, []) := by
          simp [ProcessCSV, hh]
        constructor
        · constructor
          · intro _
            exact Or.inr (Or.inr ⟨header, rows, rfl, hh⟩)
          · intro _
            exact ⟨StructuralError.headerTooFewColumns, by rw [hP]⟩
        · intro e _
          rw [hP]
      · have hP : ProcessCSV true (header :: rows) idx download =
            processRows idx download rows 1 ⟨0, 0, 0⟩ := by
          simp [ProcessCSV, hh]
        constructor
        · constructor
          · rintro ⟨e, he⟩
            rw [hP] at he
            exact absurd he (processRows_ne_structural idx download rows 1 _ e)
          · rintro (hfalse | hnil | ⟨header2, rows2, heq, hlen⟩)
            · exact absurd hfalse (by simp)
            · exact absurd hnil (by simp)
            · injection heq with e1 e2
              subst e1
              exact absurd hlen hh
        · intro e he
          rw [hP] at he
          exact absurd he (processRows_ne_structural idx download rows 1 _ e)

/-- C6 witness: an unopenable file yields a structural error. -/
theorem processCSV_structural_iff_witness :
    ∃ e, (ProcessCSV false [] 1 (fun _ _ => true)).1 = CSVOutcome.structuralError e :=
  (processCSV_structural_iff false [] 1 (fun _ _ => true)).1.mpr (Or.inl rfl)

/-- C10: with a 1-based column index the cell access is always in
bounds, so the run never panics; with an index at most 0 the header
guard passes vacuously and the first data row's access panics. -/
theorem processCSV_index_bounds (idx : Int) (download : GoStr → Nat → Bool) :
    (1 ≤ idx → ∀ (openOk : Bool) (records : List (List GoStr)),
      (ProcessCSV openOk records idx download).1 ≠ CSVOutcome.outOfRange) ∧
    (idx ≤ 0 → ∀ (header row : List GoStr) (rest : List (List GoStr)),
      (ProcessCSV true (header :: row :: rest) idx download).1 = CSVOutcome.outOfRange) := by
  constructor
  · intro hidx openOk records
    cases openOk with
    | false => simp [ProcessCSV]
    | true =>
      cases records with
      | nil => simp [ProcessCSV]
      | cons header rows =>
        by_cases hh : (header.length : Int) < idx
        · simp [ProcessCSV, hh]
        · obtain ⟨r, tr, hrec⟩ := processRows_isOk idx hidx download rows 1 ⟨0, 0, 0⟩
          rw [show ProcessCSV true (header :: rows) idx download =
              processRows idx download rows 1 ⟨0, 0, 0⟩ from by simp [ProcessCSV, hh], hrec]
          simp
  · intro hidx header row rest
    have hh : ¬ (header.length : Int) < idx := by omega
    have h1 : ¬ ((row.length : Int) < idx) := by omega
    have hg : goIndex row (idx - 1) = none := by
      unfold goIndex
      rw [if_pos (by omega : idx - 1 < 0)]
    rw [show ProcessCSV true (header :: row :: rest) idx download =
        processRows idx download (row :: rest) 1 ⟨0, 0, 0⟩ from by simp [ProcessCSV, hh]]
    simp only [processRows]
    rw [if_neg h1, hg]

/-- C10 witness: index 0 with one data row panics. -/
theorem processCSV_index_bounds_witness :
    (ProcessCSV true [["h".toList], ["x".toList]] 0 (fun _ _ => true)).1 =
      CSVOutcome.outOfRange :=
  (processCSV_index_bounds 0 (fun _ _ => true)).2 (by decide) ["h".toList] ["x".toList] []


lemma processRows_calls (idx : Int) (download : GoStr → Nat → Bool) :
    ∀ (rows : List (List GoStr)) (n : Nat) (acc : ProcessResult),
      (processRows idx download rows n acc).2 = callsSpec idx rows n := by
  intro rows
  induction rows with
  | nil => intro n acc; rfl
  | cons row rest ih =>
    intro n acc
    simp only [processRows, callsSpec]
    by_cases h1 : (row.length : Int) < idx
    · rw [if_pos h1, if_pos h1]
      exact ih (n + 1) _
    · rw [if_neg h1, if_neg h1]
      cases hgg : goIndex row (idx - 1) with
      | none => rfl
      | some cell =>
        dsimp only
        by_cases h2 : (trimSpace cell).isEmpty = true
        · rw [if_pos h2, if_pos h2]
          exact ih (n + 1) _
        · rw [if_neg h2, if_neg h2]
          dsimp only
          rw [ih (n + 1) _]

lemma callsSpec_rowNum_ge (idx : Int) :
    ∀ (rows : List (List GoStr)) (n : Nat) (u : GoStr) (m : Nat),
      (u, m) ∈ callsSpec idx rows n → n ≤ m := by
  intro rows
  induction rows with
  | nil => intro n u m hm; simp [callsSpec] at hm
  | cons row rest ih =>
    intro n u m hm
    simp only [callsSpec] at hm
    split at hm
    · have := ih (n + 1) u m hm
      omega
    · split at hm
      · simp at hm
      · rename_i cell heq
        split at hm
        · have := ih (n + 1) u m hm
          omega
        · simp only [List.mem_cons] at hm
          rcases hm with hm | hm
          · simp only [Prod.mk.injEq] at hm
            obtain ⟨-, rfl⟩ := hm
            omega
          · have := ih (n + 1) u m hm
            omega

lemma callsSpec_mem (idx : Int) (hidx : 1 ≤ idx) :
    ∀ (rows : List (List GoStr)) (n : Nat) (u : GoStr) (m : Nat),
      ((u, m) ∈ callsSpec idx rows n ↔
        ∃ k row cell, rows.get? k = some row ∧ m = n + k ∧
          ¬ ((row.length : Int) < idx) ∧ row.get? (idx - 1).toNat = some cell ∧
          u = trimSpace cell ∧ trimSpace cell ≠ []) := by
  intro rows
  induction rows with
  | nil =>
    intro n u m
    simp [callsSpec]
  | cons row rest ih =>
    intro n u m
    simp only [callsSpec]
    by_cases h1 : (row.length : Int) < idx
    · rw [if_pos h1, ih (n + 1)]
      constructor
      · rintro ⟨k, row2, cell, hget, hm, hlen, hcell, hu, hne⟩
        exact ⟨k + 1, row2, cell, by simpa using hget, by omega, hlen, hcell, hu, hne⟩
      · rintro ⟨k, row2, cell, hget, hm, hlen, hcell, hu, hne⟩
        cases k with
        | zero =>
          simp only [List.get?_cons_zero, Option.some.injEq] at hget
          subst hget
          exact absurd h1 hlen
        | succ k =>
          exact ⟨k, row2, cell, by simpa using hget, by omega, hlen, hcell, hu, hne⟩
    · rw [if_neg h1]
      have hlt : (idx - 1).toNat < row.length := by omega
      obtain ⟨cell0, hc0⟩ := get?_some_of_lt row _ hlt
      have hg : goIndex row (idx - 1) = some cell0 := by
        unfold goIndex
        rw [if_neg (by omega : ¬ (idx - 1 < 0))]
        exact hc0
      rw [hg]
      dsimp only
      by_cases h2 : (trimSpace cell0).isEmpty = true
      · have h2e : trimSpace cell0 = [] := by simpa using h2
        rw [if_pos h2, ih (n + 1)]
        constructor
        · rintro ⟨k, row2, cell, hget, hm, hlen, hcell, hu, hne⟩
          exact ⟨k + 1, row2, cell, by simpa using hget, by omega, hlen, hcell, hu, hne⟩
        · rintro ⟨k, row2, cell, hget, hm, hlen, hcell, hu, hne⟩
          cases k with
          | zero =>
            simp only [List.get?_cons_zero, Option.some.injEq] at hget
            subst hget
            rw [hc0] at hcell
            injection hcell with hcc
            subst hcc
            exact absurd h2e hne
          | succ k =>
            exact ⟨k, row2, cell, by simpa using hget, by omega, hlen, hcell, hu, hne⟩
      · have h2e : trimSpace cell0 ≠ [] := by simpa using h2
        rw [if_neg h2]
        simp only [List.mem_cons]
        rw [ih (n + 1) u m]
        constructor
        · rintro (heq | ⟨k, row2, cell, hget, hm, hlen, hcell, hu, hne⟩)
          · simp only [Prod.mk.injEq] at heq
            obtain ⟨hu, hm⟩ := heq
            exact ⟨0, row, cell0, by simp, by omega, h1, hc0, hu, h2e⟩
          · exact ⟨k + 1, row2, cell, by simpa using hget, by omega, hlen, hcell, hu, hne⟩
        · rintro ⟨k, row2, cell, hget, hm, hlen, hcell, hu, hne⟩
          cases k with
          | zero =>
            left
            simp only [List.get?_cons_zero, Option.some.injEq] at hget
            subst hget
            rw [hc0] at hcell
            injection hcell with hcc
            subst hcc
            simp only [Prod.mk.injEq]
            exact ⟨hu, by omega⟩
          | succ k =>
            right
            exact ⟨k, row2, cell, by simpa using hget, by omega, hlen, hcell, hu, hne⟩

/-- C3: the per-row behaviour of the ProcessCSV loop with a 1-based
index: a row with too few columns, or whose trimmed URL cell is empty,
bumps ErrorCount and TotalRows and produces no callback invocation with
its row number; any other row invokes the callback once with the trimmed
URL and its row number, bumping SuccessCount on success and ErrorCount on
failure, with TotalRows bumped in every case. -/
theorem processRows_step (idx : Int) (hidx : 1 ≤ idx) (download : GoStr → Nat → Bool)
    (row : List GoStr) (rest : List (List GoStr)) (n : Nat) (acc : ProcessResult) :
    (((row.length : Int) < idx →
      processRows idx download (row :: rest) n acc =
        processRows idx download rest (n + 1)
          { SuccessCount := acc.SuccessCount, ErrorCount := acc.ErrorCount + 1,
            TotalRows := acc.TotalRows + 1 } ∧
      ∀ v, (v, n) ∉ (processRows idx download (row :: rest) n acc).2)) ∧
    (∀ cell, ¬ ((row.length : Int) < idx) → row.get? (idx - 1).toNat = some cell →
      (trimSpace cell = [] →
        processRows idx download (row :: rest) n acc =
          processRows idx download rest (n + 1)
            { SuccessCount := acc.SuccessCount, ErrorCount := acc.ErrorCount + 1,
              TotalRows := acc.TotalRows + 1 } ∧
        ∀ v, (v, n) ∉ (processRows idx download (row :: rest) n acc).2) ∧
      (trimSpace cell ≠ [] →
        processRows idx download (row :: rest) n acc =
          ((processRows idx download rest (n + 1)
              (if download (trimSpace cell) n then
                { SuccessCount := acc.SuccessCount + 1, ErrorCount := acc.ErrorCount,
                  TotalRows := acc.TotalRows + 1 }
              else
                { SuccessCount := acc.SuccessCount, ErrorCount := acc.ErrorCount + 1,
                  TotalRows := acc.TotalRows + 1 })).1,
            (trimSpace cell, n) ::
              (processRows idx download rest (n + 1)
                (if download (trimSpace cell) n then
                  { SuccessCount := acc.SuccessCount + 1, ErrorCount := acc.ErrorCount,
                    TotalRows := acc.TotalRows + 1 }
                else
                  { SuccessCount := acc.SuccessCount, ErrorCount := acc.ErrorCount + 1,
                    TotalRows := acc.TotalRows + 1 })).2))) := by
  constructor
  · intro h1
    constructor
    · simp only [processRows]
      rw [if_pos h1]
      rfl
    · intro v hv
      rw [processRows_calls] at hv
      simp only [callsSpec] at hv
      rw [if_pos h1] at hv
      have := callsSpec_rowNum_ge idx rest (n + 1) v n hv
      omega
  · intro cell hlen hcell
    have hg : goIndex row (idx - 1) = some cell := by
      unfold goIndex
      rw [if_neg (by omega : ¬ (idx - 1 < 0))]
      exact hcell
    constructor
    · intro hemp
      have h2 : (trimSpace cell).isEmpty = true := by simp [hemp]
      constructor
      · simp only [processRows]
        rw [if_neg hlen, hg]
        dsimp only
        rw [if_pos h2]
        rfl
      · intro v hv
        rw [processRows_calls] at hv
        simp only [callsSpec] at hv
        rw [if_neg hlen, hg] at hv
        dsimp only at hv
        rw [if_pos h2] at hv
        have := callsSpec_rowNum_ge idx rest (n + 1) v n hv
        omega
    · intro hne
      have h2 : ¬ ((trimSpace cell).isEmpty = true) := by simpa using hne
      simp only [processRows]
      rw [if_neg hlen, hg]
      dsimp only
      rw [if_neg h2]
      rfl

/-- C3 witness: a one-column row with a non-empty cell produces exactly
one callback invocation with the trimmed URL and the current row number. -/
theorem processRows_step_witness :
    processRows 1 (fun _ _ => true) [["a".toList]] 1 ⟨0, 0, 0⟩ =
      ((processRows 1 (fun _ _ => true) [] 2 ⟨1, 0, 1⟩).1,
        ("a".toList, 1) :: (processRows 1 (fun _ _ => true) [] 2 ⟨1, 0, 1⟩).2) := by
  have h := ((processRows_step 1 (by decide) (fun _ _ => true) ["a".toList] [] 1 ⟨0, 0, 0⟩).2
      ("a".toList) (by decide) (by decide)).2 (by decide)
  rw [h]
  decide

/-- C7: with the header check passed, the callback trace of ProcessCSV
contains an invocation numbered m exactly when the m-th data record
(counting from 1, every record counted whether or not it is skipped or
fails) has enough columns and a non-empty trimmed URL cell, and then the
invocation carries that trimmed cell. -/
theorem processCSV_rowNum (idx : Int) (hidx : 1 ≤ idx) (download : GoStr → Nat → Bool)
    (header : List GoStr) (rows : List (List GoStr))
    (hh : ¬ (header.length : Int) < idx) (u : GoStr) (m : Nat) :
    ((u, m) ∈ (ProcessCSV true (header :: rows) idx download).2 ↔
      (1 ≤ m ∧ ∃ row cell, rows.get? (m - 1) = some row ∧
        ¬ ((row.length : Int) < idx) ∧ row.get? (idx - 1).toNat = some cell ∧
        u = trimSpace cell ∧ trimSpace cell ≠ [])) := by
  rw [show ProcessCSV true (header :: rows) idx download =
      processRows idx download rows 1 ⟨0, 0, 0⟩ from by simp [ProcessCSV, hh]]
  rw [processRows_calls idx download rows 1 ⟨0, 0, 0⟩]
  rw [callsSpec_mem idx hidx rows 1 u m]
  constructor
  · rintro ⟨k, row, cell, hget, hm, hlen, hcell, hu, hne⟩
    refine ⟨by omega, row, cell, ?_, hlen, hcell, hu, hne⟩
    rw [(by omega : m - 1 = k)]
    exact hget
  · rintro ⟨hm1, row, cell, hget, hlen, hcell, hu, hne⟩
    exact ⟨m - 1, row, cell, hget, by omega, hlen, hcell, hu, hne⟩

/-- C7 witness: after a skipped whitespace-only row, the second data
record's invocation carries row number 2. -/
theorem processCSV_rowNum_witness :
    ("ftp://a".toList, 2) ∈
      (ProcessCSV true [["h".toList], ["   ".toList], ["ftp://a".toList]] 1
        (fun _ _ => true)).2 :=
  (processCSV_rowNum 1 (by decide) (fun _ _ => true) ["h".toList]
      [["   ".toList], ["ftp://a".toList]] (by decide) ("ftp://a".toList) 2).mpr
    ⟨by decide, ["ftp://a".toList], "ftp://a".toList, by decide, by decide, by decide,
      by decide, by decide⟩

lemma isPrefixOf_comparable (l1 : GoStr) :
    ∀ (l2 t : GoStr), l1.isPrefixOf t = true → l2.isPrefixOf t = true →
      l1.isPrefixOf l2 = true ∨ l2.isPrefixOf l1 = true := by
  induction l1 with
  | nil => intro l2 t h1 h2; left; cases l2 <;> rfl
  | cons a as ih =>
    intro l2 t h1 h2
    cases l2 with
    | nil => right; rfl
    | cons b bs =>
      cases t with
      | nil => simp [List.isPrefixOf] at h1
      | cons c cs =>
        simp only [List.isPrefixOf, Bool.and_eq_true, beq_iff_eq] at h1 h2
        obtain ⟨rfl, h1r⟩ := h1
        obtain ⟨rfl, h2r⟩ := h2
        rcases ih bs cs h1r h2r with h | h
        · left; simp [List.isPrefixOf, h]
        · right; simp [List.isPrefixOf, h]

lemma notBothPrefixOf (l1 l2 : GoStr) (h1 : l1.isPrefixOf l2 = false)
    (h2 : l2.isPrefixOf l1 = false) (t : GoStr) :
    ¬ (l1.isPrefixOf t = true ∧ l2.isPrefixOf t = true) := by
  rintro ⟨p1, p2⟩
  rcases isPrefixOf_comparable l1 l2 t p1 p2 with h | h
  · simp [h] at h1
  · simp [h] at h2

lemma isValidURL_eq (url : GoStr) :
    IsValidURL url =
      (if (trimSpace url).isEmpty then false
       else if !(validSchemes.any (fun scheme => scheme.isPrefixOf (trimSpace url))) then false
       else if fileScheme.isPrefixOf (trimSpace url) then decide ((trimSpace url).length > 7)
       else
         match validSchemes.find? (fun scheme => scheme.isPrefixOf (trimSpace url)) with
         | some scheme =>
             decide (((trimSpace url).drop scheme.length).length > 0) &&
               !goContains ((trimSpace url).drop scheme.length) [' ']
         | none => false) := rfl

lemma c2AmendedValid_eq (url : GoStr) :
    c2AmendedValid url =
      (if (trimSpace url).isEmpty then false
       else if httpScheme.isPrefixOf (trimSpace url) then
         decide (((trimSpace url).drop httpScheme.length).length > 0) &&
           !goContains ((trimSpace url).drop httpScheme.length) [' ']
       else if httpsScheme.isPrefixOf (trimSpace url) then
         decide (((trimSpace url).drop httpsScheme.length).length > 0) &&
           !goContains ((trimSpace url).drop httpsScheme.length) [' ']
       else if ftpScheme.isPrefixOf (trimSpace url) then
         decide (((trimSpace url).drop ftpScheme.length).length > 0) &&
           !goContains ((trimSpace url).drop ftpScheme.length) [' ']
       else if fileScheme.isPrefixOf (trimSpace url) then
         decide ((trimSpace url).length > 7)
       else false) := rfl

/-- C2 amended: IsValidURL trims, requires one of the four scheme
prefixes, accepts file:// URLs iff the trimmed string is longer than 7
characters, and accepts the other three schemes iff the remainder after
the scheme prefix is non-empty and contains no space character (the code
checks only for the space, not for arbitrary whitespace). -/
theorem isValidURL_spec (url : GoStr) : IsValidURL url = c2AmendedValid url := by
  rw [isValidURL_eq, c2AmendedValid_eq]
  generalize trimSpace url = t
  by_cases h0 : t.isEmpty = true
  · rw [if_pos h0, if_pos h0]
  · rw [if_neg h0, if_neg h0]
    by_cases hhttp : httpScheme.isPrefixOf t = true
    · have hfile : fileScheme.isPrefixOf t = false := by
        cases hf : fileScheme.isPrefixOf t with
        | false => rfl
        | true =>
          exact absurd ⟨hhttp, hf⟩
            (notBothPrefixOf httpScheme fileScheme (by decide) (by decide) t)
      have hany : validSchemes.any (fun scheme => scheme.isPrefixOf t) = true := by
        simp [validSchemes, hhttp]
      have hfind : validSchemes.find? (fun scheme => scheme.isPrefixOf t) =
          some httpScheme := by
        simp [validSchemes, List.find?, hhttp]
      simp [hany, hfile, hfind, hhttp]
    · by_cases hhttps : httpsScheme.isPrefixOf t = true
      · have hfile : fileScheme.isPrefixOf t = false := by
          cases hf : fileScheme.isPrefixOf t with
          | false => rfl
          | true =>
            exact absurd ⟨hf, hhttps⟩
              (notBothPrefixOf fileScheme httpsScheme (by decide) (by decide) t)
        have hany : validSchemes.any (fun scheme => scheme.isPrefixOf t) = true := by
          simp [validSchemes, hhttps]
        have hfind : validSchemes.find? (fun scheme => scheme.isPrefixOf t) =
            some httpsScheme := by
          simp [validSchemes, List.find?, hhttp, hhttps]
        simp [hany, hfile, hfind, hhttp, hhttps]
      · by_cases hftp : ftpScheme.isPrefixOf t = true
        · have hfile : fileScheme.isPrefixOf t = false := by
            cases hf : fileScheme.isPrefixOf t with
            | false => rfl
            | true =>
              exact absurd ⟨hftp, hf⟩
                (notBothPrefixOf ftpScheme fileScheme (by decide) (by decide) t)
          have hany : validSchemes.any (fun scheme => scheme.isPrefixOf t) = true := by
            simp [validSchemes, hftp]
          have hfind : validSchemes.find? (fun scheme => scheme.isPrefixOf t) =
              some ftpScheme := by
            simp [validSchemes, List.find?, hhttp, hhttps, hftp]
          simp [hany, hfile, hfind, hhttp, hhttps, hftp]
        · by_cases hfile : fileScheme.isPrefixOf t = true
          · have hany : validSchemes.any (fun scheme => scheme.isPrefixOf t) = true := by
              simp [validSchemes, hfile]
            simp [hany, hhttp, hhttps, hftp, hfile]
          · have hany : validSchemes.any (fun scheme => scheme.isPrefixOf t) = false := by
              simp [validSchemes, hhttp, hhttps, hftp, hfile]
            simp [hany, hhttp, hhttps, hftp, hfile]

/-- C2 counterexample: on the input http followed by a tab-separated
remainder, the remainder after the scheme prefix contains a whitespace
character, so the claim as stated demands false, and the claim-worded
predicate returns false, yet IsValidURL returns true because the code
only rejects the space character. -/
theorem isValidURL_claim_counterexample :
    IsValidURL ("http://a\tb".toList) = true ∧
    c2ClaimValid ("http://a\tb".toList) = false ∧
    httpScheme.isPrefixOf (trimSpace ("http://a\tb".toList)) = true ∧
    ((trimSpace ("http://a\tb".toList)).drop httpScheme.length).any isGoSpace = true := by
  refine ⟨by decide, by decide, by decide, by decide⟩

end GoGetImgs
